import Mathlib

/-!
Verification development for the `bgp-models` BGP data-model library.

The definitions below are a shallow embedding of the Rust sources:

* `src/bgp/attributes.rs` — AS-path segments, `count_asns`, the
  `merge_aspath_as4path` reconciliation algorithm, the `Attribute` union and
  the `Display` implementation for `AsPath` that lives in that file;
* `src/bgp/community.rs`  — community and extended-community value types and
  their `Display` implementations;
* `src/bgp/display.rs`    — the second `Display` implementation for `AsPath`
  plus `Display` for `Origin`, `AtomicAggregate` and `NextHopAddress`;
* `src/bgp/elem.rs`       — `BgpElem` and its pipe-delimited rendering;
* `src/network.rs`        — `Asn`, `Afi`, `Safi`, `NextHopAddress`,
  `NetworkPrefix`.

Machine integers (`u8`, `u16`, `u32`, `usize`) are embedded as `Nat`; none of
the verified operations perform wrapping arithmetic on them, with one
exception: the `usize` subtraction `seq.len() - seq4.len()` inside
`merge_aspath_as4path`, whose potential underflow is modelled explicitly as a
panic (Rust debug semantics; overflow of an unsigned subtraction is a program
error in Rust).  Rust panics (`Option::unwrap` on `None`, underflowing `-`)
are modelled with `Except PanicKind`: an `Except.error` value means the Rust
function panics instead of returning.
-/

set_option maxHeartbeats 1000000

namespace BgpModels

/-- ASN — Autonomous System Number (`pub type Asn = u32;` in `network.rs`).
Embedded as `Nat`; the model never performs arithmetic on ASNs, so `u32`
wrap-around cannot be observed. -/
abbrev Asn : Type := Nat

/-- Rust `std::net::Ipv4Addr`: four octets, rendered in dotted-decimal. -/
structure Ipv4Addr where
  o1 : Nat
  o2 : Nat
  o3 : Nat
  o4 : Nat
  deriving DecidableEq

/-- Rust `std::net::Ipv6Addr`: eight 16-bit groups. -/
structure Ipv6Addr where
  g1 : Nat
  g2 : Nat
  g3 : Nat
  g4 : Nat
  g5 : Nat
  g6 : Nat
  g7 : Nat
  g8 : Nat
  deriving DecidableEq

/-- Rust `std::net::IpAddr`. -/
inductive IpAddr where
  | V4 (a : Ipv4Addr)
  | V6 (a : Ipv6Addr)
  deriving DecidableEq

/-- AFI — Address Family Identifier (`network.rs`). -/
inductive Afi where
  | Ipv4
  | Ipv6
  deriving DecidableEq

/-- SAFI — Subsequent Address Family Identifier (`network.rs`). -/
inductive Safi where
  | Unicast
  | Multicast
  | UnicastMulticast
  deriving DecidableEq

/-- Next-hop address variants (`network.rs`). -/
inductive NextHopAddress where
  | Ipv4 (a : Ipv4Addr)
  | Ipv6 (a : Ipv6Addr)
  | Ipv6LinkLocal (a1 a2 : Ipv6Addr)
  deriving DecidableEq

/-- Model of the external `ipnetwork::IpNetwork` type used by
`NetworkPrefix`: an address plus a mask length, rendered `addr/len`. -/
structure IpNetwork where
  addr : IpAddr
  plen : Nat
  deriving DecidableEq

/-- `NetworkPrefix` from `network.rs`.  The source field `prefix` is named
`pfx` here because `prefix` is reserved in Lean. -/
structure NetworkPrefix where
  pfx : IpNetwork
  path_id : Nat
  deriving DecidableEq

/-- `Origin` attribute values (`attributes.rs`). -/
inductive Origin where
  | IGP
  | EGP
  | INCOMPLETE
  deriving DecidableEq

/-- `AtomicAggregate` attribute values (`attributes.rs`). -/
inductive AtomicAggregate where
  | NAG
  | AG
  deriving DecidableEq

/-- Enum of AS path segment (`attributes.rs`). -/
inductive AsPathSegment where
  | AsSequence (v : List Asn)
  | AsSet (v : List Asn)
  | ConfedSequence (v : List Asn)
  | ConfedSet (v : List Asn)
  deriving DecidableEq

/-- `AsPathSegment::count_asns` (`attributes.rs` lines 166-174): an
`AsSequence` contributes its length, an `AsSet` contributes 1, confederation
segments contribute 0. -/
def AsPathSegment.count_asns : AsPathSegment → Nat
  | .AsSequence v => v.length
  | .AsSet _ => 1
  | .ConfedSequence _ | .ConfedSet _ => 0

/-- `AsPath` (`attributes.rs`): a list of segments. -/
structure AsPath where
  segments : List AsPathSegment
  deriving DecidableEq

/-- `AsPath::count_asns` (`attributes.rs` lines 199-201): sum of the
segments' contributions. -/
def AsPath.count_asns (p : AsPath) : Nat :=
  (p.segments.map AsPathSegment.count_asns).sum

/-- The `Community` enum defined in `attributes.rs` (the legacy module-local
one used by `Attribute::Communities`; distinct from the `Community` enum in
`community.rs`). -/
inductive AttrCommunity where
  | NoExport
  | NoAdvertise
  | NoExportSubConfed
  | Custom (asn : Asn) (value : Nat)
  deriving DecidableEq

/-- The `LargeCommunity` struct defined in `attributes.rs`
(`global_administrator: u32`, `local_data: [u32; 2]`). -/
structure AttrLargeCommunity where
  global_administrator : Nat
  local_data : Nat × Nat
  deriving DecidableEq

/-- `Nlri` (`attributes.rs`). -/
structure Nlri where
  afi : Afi
  safi : Safi
  next_hop : Option NextHopAddress
  prefixes : List NetworkPrefix
  deriving DecidableEq

/-- The `Attribute` enum (`attributes.rs` lines 107-123), one constructor per
BGP path-attribute kind. -/
inductive Attribute where
  | Origin (v : Origin)
  | AsPath (v : AsPath)
  | NextHop (v : Ipv4Addr)
  | MultiExitDiscriminator (v : Nat)
  | LocalPreference (v : Nat)
  | AtomicAggregate (v : AtomicAggregate)
  | Aggregator (asn : Asn) (addr : Ipv4Addr)
  | Communities (v : List AttrCommunity)
  | LargeCommunities (v : List AttrLargeCommunity)
  | OriginatorId (v : Ipv4Addr)
  | Clusters (v : List Ipv4Addr)
  | MpReachableNlri (v : Nlri)
  | MpUnreachableNlri (v : Nlri)
  | As4Aggregator (asn : Asn) (addr : Ipv4Addr)
  | As4Path (v : AsPath)
  deriving DecidableEq

/-- True exactly on the `Attribute::AsPath` variant. -/
def Attribute.isAsPathVariant : Attribute → Bool
  | .AsPath _ => true
  | _ => false

/-- True exactly on the `Attribute::As4Path` variant. -/
def Attribute.isAs4PathVariant : Attribute → Bool
  | .As4Path _ => true
  | _ => false

/-- The two ways the body of `merge_aspath_as4path` can panic in Rust:
`as4seg.unwrap()` on `None` (`attributes.rs` line 242), and the `usize`
subtraction `seq.len() - seq4.len()` underflowing (line 244, a panic in a
debug build and a program error in any build). -/
inductive PanicKind where
  | unwrapNone
  | subUnderflow
  deriving DecidableEq

/-- The `for seg in &aspath.segments` loop of `merge_aspath_as4path`
(`attributes.rs` lines 241-253), as a recursion over the AS_PATH segment
list paired step-by-step with the AS4_PATH segment list (`as4iter`).  Each
iteration first unwraps the current AS4 segment (panicking if the AS4 list
is exhausted); if both current segments are `AsSequence` it emits one merged
sequence built from `diff_len = seq.len() - seq4.len()` leading ASNs of the
AS_PATH segment followed by all of the AS4_PATH segment, otherwise it emits
the AS4 segment unchanged. -/
def mergeAs4Segments : List AsPathSegment → List AsPathSegment →
    Except PanicKind (List AsPathSegment)
  | [], _ => .ok []
  | _ :: _, [] => .error .unwrapNone
  | seg :: rest, seg4 :: rest4 =>
    match seg, seg4 with
    | .AsSequence seq, .AsSequence seq4 =>
      if seq4.length ≤ seq.length then
        (mergeAs4Segments rest rest4).map fun tl =>
          .AsSequence (seq.take (seq.length - seq4.length) ++ seq4) :: tl
      else
        .error .subUnderflow
    | _, _ => (mergeAs4Segments rest rest4).map fun tl => seg4 :: tl

/-- `AsPath::merge_aspath_as4path` (`attributes.rs` lines 222-260).  The
Rust function returns `Option<AsPath>` but can panic; the embedding returns
`Except PanicKind (Option AsPath)`, where `Except.error` marks a panic.  The
match arms mirror the source's `if let` chain in order: both absent; only
AS_PATH; only AS4_PATH; both present (ignore AS4_PATH when it counts more
ASNs, copy AS_PATH when AS4_PATH has no segments, otherwise run the paired
segment walk); and the final `warn!` + `None` arm for type-tag mismatches. -/
def AsPath.merge_aspath_as4path (aspath : Option Attribute)
    (as4path : Option Attribute) : Except PanicKind (Option AsPath) :=
  match aspath, as4path with
  | none, none => .ok none
  | some (.AsPath v), none => .ok (some v)
  | none, some (.As4Path v) => .ok (some v)
  | some (.AsPath p), some (.As4Path q) =>
    if p.count_asns < q.count_asns then
      .ok (some p)
    else
      match q.segments with
      | [] => .ok (some { segments := p.segments })
      | _ :: _ =>
        (mergeAs4Segments p.segments q.segments).map fun segs =>
          some { segments := segs }
  | _, _ => .ok none

/-- `RegularCommunity` (`community.rs`). -/
inductive RegularCommunity where
  | NoExport
  | NoAdvertise
  | NoExportSubConfed
  | Custom (asn : Asn) (value : Nat)
  deriving DecidableEq

/-- `LargeCommunity` (`community.rs`): three 4-octet fields. -/
structure LargeCommunity where
  global_administrator : Nat
  local_data : Nat × Nat
  deriving DecidableEq

/-- Two-Octet AS Specific Extended Community (`community.rs` lines 110-118).
`global_administrator` is stored in an `Asn` (a `u32`) even though it
occupies 2 octets on the wire; `local_administrator` is `[u8; 4]`, embedded
as a 4-tuple. -/
structure TwoOctetAsSpecific where
  ec_type : Nat
  ec_subtype : Nat
  global_administrator : Asn
  local_administrator : Nat × Nat × Nat × Nat
  deriving DecidableEq

/-- Four-Octet AS Specific Extended Community (`community.rs`):
4-octet `global_administrator` stored in an `Asn`, `[u8; 2]` local part. -/
structure FourOctetAsSpecific where
  ec_type : Nat
  ec_subtype : Nat
  global_administrator : Asn
  local_administrator : Nat × Nat
  deriving DecidableEq

/-- IPv4 Address Specific Extended Community (`community.rs`): 4-octet
IPv4 `global_administrator`, `[u8; 2]` local part. -/
structure Ipv4AddressSpecific where
  ec_type : Nat
  ec_subtype : Nat
  global_administrator : Ipv4Addr
  local_administrator : Nat × Nat
  deriving DecidableEq

/-- Opaque Extended Community (`community.rs`): 6-octet value. -/
structure Opaque where
  ec_type : Nat
  ec_subtype : Nat
  value : Nat × Nat × Nat × Nat × Nat × Nat
  deriving DecidableEq

/-- `ExtendedCommunity` (`community.rs` lines 83-94). -/
inductive ExtendedCommunity where
  | TransitiveTwoOctetAsSpecific (v : TwoOctetAsSpecific)
  | TransitiveIpv4AddressSpecific (v : Ipv4AddressSpecific)
  | TransitiveFourOctetAsSpecific (v : FourOctetAsSpecific)
  | TransitiveOpaque (v : Opaque)
  | NonTransitiveTwoOctetAsSpecific (v : TwoOctetAsSpecific)
  | NonTransitiveIpv4AddressSpecific (v : Ipv4AddressSpecific)
  | NonTransitiveFourOctetAsSpecific (v : FourOctetAsSpecific)
  | NonTransitiveOpaque (v : Opaque)
  | Raw (b1 b2 b3 b4 b5 b6 b7 b8 : Nat)
  deriving DecidableEq

/-- `Ipv6AddressSpecificExtendedCommunity` (`community.rs`): a 20-octet
community (not one of the 8-octet `ExtendedCommunity` variants). -/
structure Ipv6AddressSpecificExtendedCommunity where
  ec_type : Nat
  ec_subtype : Nat
  global_administrator : Ipv6Addr
  local_administrator : Nat × Nat
  deriving DecidableEq

/-- The top-level `Community` enum of `community.rs` (the one used by
`BgpElem::communities`). -/
inductive Community where
  | RegularCommunity (v : RegularCommunity)
  | ExtendedCommunity (v : ExtendedCommunity)
  | Ipv6SpecificExtendedCommunity (v : Ipv6AddressSpecificExtendedCommunity)
  | LargeCommunity (v : LargeCommunity)
  deriving DecidableEq

/-- Big-endian bytes of a value truncated to 2 octets. -/
def u16BE (n : Nat) : List Nat :=
  [n / 2 ^ 8 % 2 ^ 8, n % 2 ^ 8]

/-- Big-endian bytes of a value truncated to 4 octets. -/
def u32BE (n : Nat) : List Nat :=
  [n / 2 ^ 24 % 2 ^ 8, n / 2 ^ 16 % 2 ^ 8, n / 2 ^ 8 % 2 ^ 8, n % 2 ^ 8]

/-- Modelled from the spec: the repository under `src/` contains no
byte-level serializer for extended communities (the spec's §1 places the
wire codec out of scope and §8 still demands that every variant's fields
"serialized to bytes" total exactly 8 octets).  This function realises that
serialization from the spec's §3 sub-layouts and the per-field octet
comments in `community.rs`: 1-octet `ec_type` and `ec_subtype`; a 2-octet
global administrator for the TwoOctetAsSpecific variants (the low 16 bits of
the stored `Asn`); 4-octet global administrators for the FourOctetAsSpecific
(full `Asn`) and Ipv4AddressSpecific variants; then the fixed-width local
administrator bytes; `Opaque` carries a 6-octet value and `Raw` a plain
8-octet payload. -/
def ExtendedCommunity.serializedBytes : ExtendedCommunity → List Nat
  | .TransitiveTwoOctetAsSpecific ec | .NonTransitiveTwoOctetAsSpecific ec =>
    [ec.ec_type, ec.ec_subtype] ++ u16BE ec.global_administrator ++
      [ec.local_administrator.1, ec.local_administrator.2.1,
       ec.local_administrator.2.2.1, ec.local_administrator.2.2.2]
  | .TransitiveIpv4AddressSpecific ec | .NonTransitiveIpv4AddressSpecific ec =>
    [ec.ec_type, ec.ec_subtype, ec.global_administrator.o1,
     ec.global_administrator.o2, ec.global_administrator.o3,
     ec.global_administrator.o4, ec.local_administrator.1,
     ec.local_administrator.2]
  | .TransitiveFourOctetAsSpecific ec | .NonTransitiveFourOctetAsSpecific ec =>
    [ec.ec_type, ec.ec_subtype] ++ u32BE ec.global_administrator ++
      [ec.local_administrator.1, ec.local_administrator.2]
  | .TransitiveOpaque ec | .NonTransitiveOpaque ec =>
    [ec.ec_type, ec.ec_subtype, ec.value.1, ec.value.2.1, ec.value.2.2.1,
     ec.value.2.2.2.1, ec.value.2.2.2.2.1, ec.value.2.2.2.2.2]
  | .Raw b1 b2 b3 b4 b5 b6 b7 b8 =>
    [b1, b2, b3, b4, b5, b6, b7, b8]

/-- Join a list of strings with a separator between consecutive elements
(nothing before the first or after the last).  This is both the behaviour of
the manual `for (index, segment)` loop in the `Display` impl for `AsPath` in
`attributes.rs` (write each element, then the separator unless it is the
last) and of Rust's `Vec::join`/itertools `join` used in `display.rs` and
`elem.rs`. -/
def joinSep (sep : String) : List String → String
  | [] => ""
  | [s] => s
  | s :: rest => s ++ sep ++ joinSep sep rest

/-- The `for i in &v[1..]` loop inside the `write_vec` closure of
`attributes.rs`: each later ASN is written as `separator ++ asn`, in
order. -/
def writeTail (separator : String) : List Asn → String
  | [] => ""
  | i :: rest => separator ++ toString i ++ writeTail separator rest

/-- The `write_vec` closure of the `Display` impl for `AsPathSegment` in
`attributes.rs` (lines 277-286): write `pre`, then, when the vector is
non-empty, its first ASN followed by `separator ++ asn` for every later
ASN, then `suf`. -/
def write_vec (v : List Asn) (separator pre suf : String) : String :=
  pre ++
    (match v with
      | [] => ""
      | x :: rest => toString x ++ writeTail separator rest)
    ++ suf

/-- `Display` for `AsPathSegment` as implemented in `attributes.rs` (lines
275-296): sequences render space-separated; sets render comma-space
separated inside `\x7b ... \x7d` with spaces inside the braces. -/
def AsPathSegment.displayAttr : AsPathSegment → String
  | .AsSequence s | .ConfedSequence s => write_vec s (" ") ("") ("")
  | .AsSet s | .ConfedSet s => write_vec s (", ") ("\x7b ") (" \x7d")

/-- `Display` for `AsPath` as implemented in `attributes.rs` (lines
263-273): each segment, with a single space after every segment except the
last. -/
def AsPath.displayAttr (p : AsPath) : String :=
  joinSep (" ") (p.segments.map AsPathSegment.displayAttr)

/-- The per-segment rendering of the `Display` impl for `AsPath` in
`display.rs` (lines 66-92): sequences join ASNs with spaces; sets join ASNs
with commas, no spaces, inside `\x7b...\x7d`. -/
def AsPathSegment.displayDisp : AsPathSegment → String
  | .AsSequence v | .ConfedSequence v => joinSep (" ") (v.map toString)
  | .AsSet v | .ConfedSet v =>
    "\x7b" ++ joinSep (",") (v.map toString) ++ "\x7d"

/-- `Display` for `AsPath` as implemented in `display.rs`: the rendered
segments joined with single spaces. -/
def AsPath.displayDisp (p : AsPath) : String :=
  joinSep (" ") (p.segments.map AsPathSegment.displayDisp)

/-- True on the sequence-shaped segment kinds (`AsSequence` and
`ConfedSequence`), the kinds on which the two `Display` implementations use
the same space-separated rendering. -/
def AsPathSegment.isSequenceKind : AsPathSegment → Bool
  | .AsSequence _ | .ConfedSequence _ => true
  | .AsSet _ | .ConfedSet _ => false

/-- One byte rendered as in Rust's `format!("\x7b:02X\x7d", x)`: two
upper-case hex digits. -/
def hexUpper2 (n : Nat) : String :=
  String.mk [(Nat.digitChar (n / 16 % 16)).toUpper, (Nat.digitChar (n % 16)).toUpper]

/-- `bytes_to_string` from `community.rs` (lines 161-163): each byte as two
upper-case hex digits, concatenated with no separator. -/
def bytes_to_string (bytes : List Nat) : String :=
  String.join (bytes.map hexUpper2)

/-- `Display` for `std::net::Ipv4Addr`: dotted decimal. -/
def Ipv4Addr.displayStr (a : Ipv4Addr) : String :=
  toString a.o1 ++ "." ++ toString a.o2 ++ "." ++ toString a.o3 ++ "." ++
    toString a.o4

/-- Model of `Display` for `std::net::Ipv6Addr`: the eight groups in
lower-case hex joined by colons.  (The standard library additionally
compresses the longest zero run to `::`; no claim depends on the exact
rendering of an IPv6 address, which stays symbolic in every theorem below,
so that compression is not modelled.) -/
def Ipv6Addr.displayStr (a : Ipv6Addr) : String :=
  joinSep (":")
    ([a.g1, a.g2, a.g3, a.g4, a.g5, a.g6, a.g7, a.g8].map fun g =>
      String.mk (Nat.toDigits 16 g))

/-- `Display` for `std::net::IpAddr`: dispatch on the version. -/
def IpAddr.displayStr : IpAddr → String
  | .V4 a => a.displayStr
  | .V6 a => a.displayStr

/-- `Display` for the external `ipnetwork::IpNetwork`: `address/len`. -/
def IpNetwork.displayStr (n : IpNetwork) : String :=
  n.addr.displayStr ++ "/" ++ toString n.plen

/-- `Display` for `NetworkPrefix` (`network.rs` lines 89-93): only the inner
network is printed (the path id is not rendered). -/
def NetworkPrefix.displayStr (p : NetworkPrefix) : String :=
  p.pfx.displayStr

/-- `Display` for `Origin` (`display.rs` lines 14-23). -/
def Origin.displayStr : Origin → String
  | .IGP => "IGP"
  | .EGP => "EGP"
  | .INCOMPLETE => "INCOMPLETE"

/-- `Display` for `AtomicAggregate` (`display.rs` lines 25-32). -/
def AtomicAggregate.displayStr : AtomicAggregate → String
  | .NAG => "NAG"
  | .AG => "AG"

/-- `Display` for `RegularCommunity` (`community.rs` lines 172-190). -/
def RegularCommunity.displayStr : RegularCommunity → String
  | .NoExport => "no-export"
  | .NoAdvertise => "no-advertise"
  | .NoExportSubConfed => "no-export-sub-confed"
  | .Custom asn value => toString asn ++ ":" ++ toString value

/-- `Display` for `LargeCommunity` (`community.rs` lines 192-196). -/
def LargeCommunity.displayStr (c : LargeCommunity) : String :=
  toString c.global_administrator ++ ":" ++ toString c.local_data.1 ++ ":" ++
    toString c.local_data.2

/-- `Display` for `ExtendedCommunity` (`community.rs` lines 198-221). -/
def ExtendedCommunity.displayStr : ExtendedCommunity → String
  | .TransitiveTwoOctetAsSpecific ec | .NonTransitiveTwoOctetAsSpecific ec =>
    toString ec.ec_type ++ ":" ++ toString ec.ec_subtype ++ ":" ++
      toString ec.global_administrator ++ ":" ++
      bytes_to_string [ec.local_administrator.1, ec.local_administrator.2.1,
        ec.local_administrator.2.2.1, ec.local_administrator.2.2.2]
  | .TransitiveIpv4AddressSpecific ec | .NonTransitiveIpv4AddressSpecific ec =>
    toString ec.ec_type ++ ":" ++ toString ec.ec_subtype ++ ":" ++
      ec.global_administrator.displayStr ++ ":" ++
      bytes_to_string [ec.local_administrator.1, ec.local_administrator.2]
  | .TransitiveFourOctetAsSpecific ec | .NonTransitiveFourOctetAsSpecific ec =>
    toString ec.ec_type ++ ":" ++ toString ec.ec_subtype ++ ":" ++
      toString ec.global_administrator ++ ":" ++
      bytes_to_string [ec.local_administrator.1, ec.local_administrator.2]
  | .TransitiveOpaque ec | .NonTransitiveOpaque ec =>
    toString ec.ec_type ++ ":" ++ toString ec.ec_subtype ++ ":" ++
      bytes_to_string [ec.value.1, ec.value.2.1, ec.value.2.2.1,
        ec.value.2.2.2.1, ec.value.2.2.2.2.1, ec.value.2.2.2.2.2]
  | .Raw b1 b2 b3 b4 b5 b6 b7 b8 =>
    bytes_to_string [b1, b2, b3, b4, b5, b6, b7, b8]

/-- `Display` for `Ipv6AddressSpecificExtendedCommunity` (`community.rs`
lines 166-170). -/
def Ipv6AddressSpecificExtendedCommunity.displayStr
    (c : Ipv6AddressSpecificExtendedCommunity) : String :=
  toString c.ec_type ++ ":" ++ toString c.ec_subtype ++ ":" ++
    c.global_administrator.displayStr ++ ":" ++
    bytes_to_string [c.local_administrator.1, c.local_administrator.2]

/-- `Display` for the top-level `Community` (`community.rs` lines
223-233). -/
def Community.displayStr : Community → String
  | .RegularCommunity c => c.displayStr
  | .ExtendedCommunity c => c.displayStr
  | .Ipv6SpecificExtendedCommunity c => c.displayStr
  | .LargeCommunity c => c.displayStr

/-- Element type (`elem.rs`). -/
inductive ElemType where
  | ANNOUNCE
  | WITHDRAW
  deriving DecidableEq

/-- `BgpElem` (`elem.rs` lines 27-43).  The source field `prefix` is named
`pfx` (reserved word in Lean).  The source `timestamp` field is an `f64`
rendered through `Display`; MRT timestamps are integral seconds and an
integral `f64` renders as its plain decimal digits, so the timestamp is
embedded as a `Nat` — every theorem below keeps the rendered timestamp
symbolic, so nothing depends on this choice. -/
structure BgpElem where
  timestamp : Nat
  elem_type : ElemType
  peer_ip : IpAddr
  peer_asn : Asn
  pfx : NetworkPrefix
  next_hop : Option IpAddr
  as_path : Option AsPath
  origin_asns : Option (List Asn)
  origin : Option Origin
  local_pref : Option Nat
  med : Option Nat
  communities : Option (List Community)
  atomic : Option AtomicAggregate
  aggr_asn : Option Asn
  aggr_ip : Option IpAddr

/-- The `option_to_string!` macro of `elem.rs` (lines 87-95): render the
value when present, the empty string when absent. -/
def option_to_string {α : Type} (f : α → String) : Option α → String
  | some v => f v
  | none => ""

/-- `option_to_string_communities` (`elem.rs` lines 97-105): communities
joined by single spaces, empty string when absent. -/
def option_to_string_communities : Option (List Community) → String
  | some v => joinSep (" ") (v.map Community.displayStr)
  | none => ""

/-- `Display` for `BgpElem` (`elem.rs` lines 107-131): the
`format!("\x7b\x7d|\x7b\x7d|...")` with 14 fields and 13 pipe delimiters, in
source order: type tag (`A`/`W`), timestamp, peer_ip, peer_asn, prefix,
as_path, origin, next_hop, local_pref, med, communities, atomic, aggr_asn,
aggr_ip.  (`origin_asns` is not rendered.)  The `as_path` field renders via
the `Display` impl for `AsPath` of `attributes.rs`, the only one in the
module tree that contains `elem.rs`. -/
def BgpElem.display (e : BgpElem) : String :=
  (match e.elem_type with
    | .ANNOUNCE => "A"
    | .WITHDRAW => "W")
  ++ "|" ++ toString e.timestamp
  ++ "|" ++ e.peer_ip.displayStr
  ++ "|" ++ toString e.peer_asn
  ++ "|" ++ e.pfx.displayStr
  ++ "|" ++ option_to_string AsPath.displayAttr e.as_path
  ++ "|" ++ option_to_string Origin.displayStr e.origin
  ++ "|" ++ option_to_string IpAddr.displayStr e.next_hop
  ++ "|" ++ option_to_string toString e.local_pref
  ++ "|" ++ option_to_string toString e.med
  ++ "|" ++ option_to_string_communities e.communities
  ++ "|" ++ option_to_string AtomicAggregate.displayStr e.atomic
  ++ "|" ++ option_to_string toString e.aggr_asn
  ++ "|" ++ option_to_string IpAddr.displayStr e.aggr_ip

instance {ε α : Type} [DecidableEq ε] [DecidableEq α] :
    DecidableEq (Except ε α) := fun a b =>
  match a, b with
  | .ok x, .ok y =>
    if h : x = y then .isTrue (by rw [h]) else .isFalse fun hh => h (by cases hh; rfl)
  | .error x, .error y =>
    if h : x = y then .isTrue (by rw [h]) else .isFalse fun hh => h (by cases hh; rfl)
  | .ok _, .error _ => .isFalse fun hh => by cases hh
  | .error _, .ok _ => .isFalse fun hh => by cases hh

/-- Position-wise compatibility of an AS_PATH segment list with an AS4_PATH
segment list: the AS_PATH list is no longer than the AS4_PATH list, every
AS_PATH segment and its corresponding AS4_PATH segment are both
`AsSequence`, and each AS_PATH sequence is at least as long as its AS4_PATH
counterpart. -/
def alignedSeqPairs : List AsPathSegment → List AsPathSegment → Bool
  | [], _ => true
  | _ :: _, [] => false
  | .AsSequence s :: rest, .AsSequence s4 :: rest4 =>
    decide (s4.length ≤ s.length) && alignedSeqPairs rest rest4
  | _ :: _, _ :: _ => false

/-- At every position of the paired walk where both segments are
`AsSequence`, the AS_PATH sequence is at least as long as the AS4_PATH
sequence (no condition at positions of any other shape). -/
def noUnderflowPairs : List AsPathSegment → List AsPathSegment → Bool
  | _, [] => true
  | [], _ => true
  | .AsSequence s :: rest, .AsSequence s4 :: rest4 =>
    decide (s4.length ≤ s.length) && noUnderflowPairs rest rest4
  | _ :: rest, _ :: rest4 => noUnderflowPairs rest rest4

/-- On position-wise aligned segment lists the paired walk succeeds and
preserves the total ASN count of the AS_PATH list. -/
theorem mergeAs4Segments_aligned :
    ∀ (ps qs : List AsPathSegment), alignedSeqPairs ps qs = true →
      ∃ out, mergeAs4Segments ps qs = .ok out ∧
        (out.map AsPathSegment.count_asns).sum =
          (ps.map AsPathSegment.count_asns).sum := by
  intro ps
  induction ps with
  | nil => exact fun qs _ => ⟨[], rfl, rfl⟩
  | cons s rest ih =>
    intro qs h
    cases qs with
    | nil => simp [alignedSeqPairs] at h
    | cons s4 rest4 =>
      cases s with
      | AsSequence a =>
        cases s4 with
        | AsSequence b =>
          simp only [alignedSeqPairs, Bool.and_eq_true, decide_eq_true_eq] at h
          obtain ⟨h1, h2⟩ := h
          obtain ⟨out, hout, hsum⟩ := ih rest4 h2
          refine ⟨.AsSequence (a.take (a.length - b.length) ++ b) :: out, ?_, ?_⟩
          · simp [mergeAs4Segments, h1, hout, Except.map]
          · simp only [List.map_cons, List.sum_cons, AsPathSegment.count_asns,
              List.length_append, List.length_take, hsum]
            have hmin : min (a.length - b.length) a.length = a.length - b.length :=
              Nat.min_eq_left (Nat.sub_le _ _)
            rw [hmin, Nat.sub_add_cancel h1]
        | AsSet b => simp [alignedSeqPairs] at h
        | ConfedSequence b => simp [alignedSeqPairs] at h
        | ConfedSet b => simp [alignedSeqPairs] at h
      | AsSet a => cases s4 <;> simp [alignedSeqPairs] at h
      | ConfedSequence a => cases s4 <;> simp [alignedSeqPairs] at h
      | ConfedSet a => cases s4 <;> simp [alignedSeqPairs] at h

/-- When every paired `AsSequence`/`AsSequence` position satisfies the
length condition, the paired walk never hits the underflowing
subtraction. -/
theorem mergeAs4Segments_noUnderflow :
    ∀ (ps qs : List AsPathSegment), noUnderflowPairs ps qs = true →
      mergeAs4Segments ps qs ≠ .error .subUnderflow := by
  intro ps
  induction ps with
  | nil => intro qs _; simp [mergeAs4Segments]
  | cons s rest ih =>
    intro qs h
    cases qs with
    | nil => simp [mergeAs4Segments]
    | cons s4 rest4 =>
      cases s <;> cases s4 <;> simp [noUnderflowPairs] at h
      all_goals {
        first
        | -- the AsSequence/AsSequence case: h is a conjunction
          (obtain ⟨h1, h2⟩ := h
           have hrec := ih rest4 h2
           simp only [mergeAs4Segments, h1, if_true, decide_eq_true_eq]
           cases hm : mergeAs4Segments rest rest4 with
           | ok out => simp [Except.map]
           | error e =>
             have he : e ≠ .subUnderflow := fun hhe => hrec (by rw [hm, hhe])
             simp [Except.map, he])
        | -- every other pair shape: h is the recursive condition
          (have hrec := ih rest4 h
           simp only [mergeAs4Segments]
           cases hm : mergeAs4Segments rest rest4 with
           | ok out => simp [Except.map]
           | error e =>
             have he : e ≠ .subUnderflow := fun hhe => hrec (by rw [hm, hhe])
             simp [Except.map, he])
      }

/-- C1 counterexample.  Two concrete inputs satisfy the claim's hypotheses —
`p.count_asns() ≥ q.count_asns()` and every segment of `p` paired with a
corresponding AS_SEQUENCE segment of `q` — yet the merge does not produce a
path with `p`'s ASN count.  First input: `p`'s leading segment is an AS_SET,
the merge succeeds but returns a path counting 4 ASNs where `p` counts 3.
Second input (all segments AS_SEQUENCE on both sides): the first paired
AS_SEQUENCE of `p` is shorter than its AS4 counterpart, so the merge panics
on the underflowing subtraction and returns no path at all. -/
theorem c1_count_preservation_cex :
    AsPath.count_asns ⟨[.AsSet [1], .AsSequence [5, 6]]⟩ ≥
      AsPath.count_asns ⟨[.AsSequence [3, 4], .AsSequence [6]]⟩ ∧
    AsPath.merge_aspath_as4path
        (some (.AsPath ⟨[.AsSet [1], .AsSequence [5, 6]]⟩))
        (some (.As4Path ⟨[.AsSequence [3, 4], .AsSequence [6]]⟩)) =
      .ok (some ⟨[.AsSequence [3, 4], .AsSequence [5, 6]]⟩) ∧
    AsPath.count_asns ⟨[.AsSequence [3, 4], .AsSequence [5, 6]]⟩ ≠
      AsPath.count_asns ⟨[.AsSet [1], .AsSequence [5, 6]]⟩ ∧
    AsPath.count_asns ⟨[.AsSequence [1], .AsSequence [2, 3]]⟩ ≥
      AsPath.count_asns ⟨[.AsSequence [4, 5], .AsSequence [6]]⟩ ∧
    AsPath.merge_aspath_as4path
        (some (.AsPath ⟨[.AsSequence [1], .AsSequence [2, 3]]⟩))
        (some (.As4Path ⟨[.AsSequence [4, 5], .AsSequence [6]]⟩)) =
      .error .subUnderflow :=
  ⟨by decide, by decide, by decide, by decide, by decide⟩

/-- C1 (amended): when additionally every segment of `p` is an AS_SEQUENCE
whose AS4_PATH counterpart is an AS_SEQUENCE no longer than it (which the
global count precondition alone does not guarantee), the merge succeeds and
the merged path's total ASN count equals `p.count_asns()` exactly. -/
theorem c1_count_preservation_amended :
    ∀ p q : AsPath, q.count_asns ≤ p.count_asns →
      alignedSeqPairs p.segments q.segments = true →
      ∃ m, AsPath.merge_aspath_as4path (some (.AsPath p)) (some (.As4Path q)) =
          .ok (some m) ∧ m.count_asns = p.count_asns := by
  intro p q hcnt halign
  have hnlt : ¬ p.count_asns < q.count_asns := Nat.not_lt.mpr hcnt
  cases hq : q.segments with
  | nil =>
    exact ⟨⟨p.segments⟩, by simp [AsPath.merge_aspath_as4path, hnlt, hq], rfl⟩
  | cons s4 rest4 =>
    obtain ⟨out, hout, hsum⟩ :=
      mergeAs4Segments_aligned p.segments q.segments halign
    rw [hq] at hout
    refine ⟨⟨out⟩, ?_, ?_⟩
    · simp [AsPath.merge_aspath_as4path, hnlt, hq, hout, Except.map]
    · simpa [AsPath.count_asns] using hsum

/-- C1 witness: the amended theorem applied to the repository's own unit
test input. -/
theorem c1_count_preservation_witness :
    AsPath.count_asns ⟨[.AsSequence [2, 3, 7]]⟩ ≤
      AsPath.count_asns ⟨[.AsSequence [1, 2, 3, 5]]⟩ ∧
    ∃ m, AsPath.merge_aspath_as4path
        (some (.AsPath ⟨[.AsSequence [1, 2, 3, 5]]⟩))
        (some (.As4Path ⟨[.AsSequence [2, 3, 7]]⟩)) = .ok (some m) ∧
      m.count_asns = AsPath.count_asns ⟨[.AsSequence [1, 2, 3, 5]]⟩ :=
  ⟨by decide,
   c1_count_preservation_amended ⟨[.AsSequence [1, 2, 3, 5]]⟩
     ⟨[.AsSequence [2, 3, 7]]⟩ (by decide) (by decide)⟩

/-- C2: on a concrete input meeting the claim's hypotheses — both
attributes present with matching tags, `count_asns(AS_PATH) = 3 ≥ 2 =
count_asns(AS4_PATH)`, and AS4_PATH holding one segment against AS_PATH's
two — the code does not append the remaining AS_PATH segment verbatim: it
panics on `as4seg.unwrap()` (`attributes.rs` line 242) once the AS4_PATH
iterator is exhausted, contradicting the specified behaviour. -/
theorem c2_exhausted_as4path_panics :
    AsPath.count_asns ⟨[.AsSequence [1, 2], .AsSequence [3]]⟩ ≥
      AsPath.count_asns ⟨[.AsSequence [2, 3]]⟩ ∧
    AsPath.merge_aspath_as4path
        (some (.AsPath ⟨[.AsSequence [1, 2], .AsSequence [3]]⟩))
        (some (.As4Path ⟨[.AsSequence [2, 3]]⟩)) =
      .error .unwrapNone :=
  ⟨by decide, by decide⟩

/-- C3 counterexample: under the already-checked precondition
`count_asns(AS_PATH) ≥ count_asns(AS4_PATH)` (here 3 ≥ 3), a paired
AS_SEQUENCE position can still have `len(AS_PATH_segment) <
len(AS4_PATH_segment)` (here 1 < 2), and the unsigned subtraction computing
`diff_len` underflows. -/
theorem c3_diff_len_underflow_cex :
    AsPath.count_asns ⟨[.AsSequence [1], .AsSequence [2, 3]]⟩ ≥
      AsPath.count_asns ⟨[.AsSequence [4, 5], .AsSequence [6]]⟩ ∧
    AsPath.merge_aspath_as4path
        (some (.AsPath ⟨[.AsSequence [1], .AsSequence [2, 3]]⟩))
        (some (.As4Path ⟨[.AsSequence [4, 5], .AsSequence [6]]⟩)) =
      .error .subUnderflow :=
  ⟨by decide, by decide⟩

/-- C3 (amended): the subtraction computing `diff_len` never underflows
exactly under the per-position condition that every paired
AS_SEQUENCE/AS_SEQUENCE position has `len(AS_PATH_segment) ≥
len(AS4_PATH_segment)`; the global count precondition alone does not ensure
it (see the counterexample). -/
theorem c3_no_underflow_amended :
    ∀ p q : AsPath, noUnderflowPairs p.segments q.segments = true →
      AsPath.merge_aspath_as4path (some (.AsPath p)) (some (.As4Path q)) ≠
        .error .subUnderflow := by
  intro p q h
  by_cases hlt : p.count_asns < q.count_asns
  · simp [AsPath.merge_aspath_as4path, hlt]
  · cases hq : q.segments with
    | nil => simp [AsPath.merge_aspath_as4path, hlt, hq]
    | cons s4 rest4 =>
      have h' := mergeAs4Segments_noUnderflow p.segments q.segments h
      rw [hq] at h'
      simp only [AsPath.merge_aspath_as4path, hlt, if_false, hq]
      cases hm : mergeAs4Segments p.segments (s4 :: rest4) with
      | ok out => simp [Except.map]
      | error e =>
        have he : e ≠ .subUnderflow := fun hhe => h' (by rw [hm, hhe])
        simp [Except.map, he]

/-- C3 witness: the amended theorem applied to the repository's unit-test
input, where the single paired position satisfies the length condition. -/
theorem c3_no_underflow_witness :
    noUnderflowPairs [.AsSequence [1, 2, 3, 5]] [.AsSequence [2, 3, 7]] = true ∧
    AsPath.merge_aspath_as4path
        (some (.AsPath ⟨[.AsSequence [1, 2, 3, 5]]⟩))
        (some (.As4Path ⟨[.AsSequence [2, 3, 7]]⟩)) ≠
      .error .subUnderflow :=
  ⟨by decide,
   c3_no_underflow_amended ⟨[.AsSequence [1, 2, 3, 5]]⟩
     ⟨[.AsSequence [2, 3, 7]]⟩ (by decide)⟩

/-- C4: at every position of the paired walk where both segments are
AS_SEQUENCE (and the subtraction does not underflow), the produced segment
is a single AS_SEQUENCE holding the leading
`len(AS_PATH_segment) - len(AS4_PATH_segment)` ASNs of the AS_PATH segment
followed by all ASNs of the AS4_PATH segment; and on the spec's example,
merging AS_PATH = [AS_SEQUENCE(1,2,3,5)] with AS4_PATH = [AS_SEQUENCE(2,3,7)]
yields [AS_SEQUENCE(1,2,3,7)]. -/
theorem c4_sequence_pair_merge :
    (∀ (seq seq4 : List Asn) (rest rest4 : List AsPathSegment),
      seq4.length ≤ seq.length →
        mergeAs4Segments (.AsSequence seq :: rest) (.AsSequence seq4 :: rest4) =
          (mergeAs4Segments rest rest4).map fun tl =>
            .AsSequence (seq.take (seq.length - seq4.length) ++ seq4) :: tl) ∧
    AsPath.merge_aspath_as4path
        (some (.AsPath ⟨[.AsSequence [1, 2, 3, 5]]⟩))
        (some (.As4Path ⟨[.AsSequence [2, 3, 7]]⟩)) =
      .ok (some ⟨[.AsSequence [1, 2, 3, 7]]⟩) := by
  constructor
  · intro seq seq4 rest rest4 h
    simp [mergeAs4Segments, h]
  · decide

/-- C4 witness: the per-position equation applied to the example's concrete
segments with empty remainders. -/
theorem c4_sequence_pair_merge_witness :
    ([2, 3, 7] : List Asn).length ≤ ([1, 2, 3, 5] : List Asn).length ∧
    mergeAs4Segments [.AsSequence [1, 2, 3, 5]] [.AsSequence [2, 3, 7]] =
      (mergeAs4Segments [] []).map (fun tl =>
        .AsSequence ((([1, 2, 3, 5] : List Asn)).take
          (([1, 2, 3, 5] : List Asn).length - ([2, 3, 7] : List Asn).length) ++
            [2, 3, 7]) :: tl) :=
  ⟨by decide,
   c4_sequence_pair_merge.1 [1, 2, 3, 5] [2, 3, 7] [] [] (by decide)⟩

/-- C5: when `count_asns(AS_PATH) < count_asns(AS4_PATH)` the merge returns
AS_PATH unchanged regardless of AS4_PATH's content, and when exactly one of
the two attributes is present with the matching variant tag the merge
returns that attribute's path unchanged. -/
theorem c5_ignore_or_passthrough :
    (∀ p q : AsPath, p.count_asns < q.count_asns →
      AsPath.merge_aspath_as4path (some (.AsPath p)) (some (.As4Path q)) =
        .ok (some p)) ∧
    (∀ p : AsPath,
      AsPath.merge_aspath_as4path (some (.AsPath p)) none = .ok (some p)) ∧
    (∀ q : AsPath,
      AsPath.merge_aspath_as4path none (some (.As4Path q)) = .ok (some q)) := by
  refine ⟨?_, fun p => rfl, fun q => rfl⟩
  intro p q h
  simp [AsPath.merge_aspath_as4path, h]

/-- C5 witness: the ignore branch at a concrete pair with counts 0 < 1, plus
a pass-through case. -/
theorem c5_ignore_or_passthrough_witness :
    AsPath.count_asns ⟨[]⟩ < AsPath.count_asns ⟨[.AsSequence [7]]⟩ ∧
    AsPath.merge_aspath_as4path (some (.AsPath ⟨[]⟩))
        (some (.As4Path ⟨[.AsSequence [7]]⟩)) = .ok (some ⟨[]⟩) :=
  ⟨by decide, c5_ignore_or_passthrough.1 ⟨[]⟩ ⟨[.AsSequence [7]]⟩ (by decide)⟩

/-- C6: whenever the `aspath` argument holds a non-`AsPath` variant or the
`as4path` argument holds a non-`As4Path` variant (a type-tag mismatch with
at least one argument present), the merge returns `None` — without
panicking and without partial data. -/
theorem c6_type_tag_mismatch_none :
    ∀ (a b : Option Attribute),
      ((∃ x, a = some x ∧ x.isAsPathVariant = false) ∨
       (∃ y, b = some y ∧ y.isAs4PathVariant = false)) →
      AsPath.merge_aspath_as4path a b = .ok none := by
  intro a b h
  rcases h with ⟨x, rfl, hx⟩ | ⟨y, rfl, hy⟩
  · cases b with
    | none =>
      cases x <;> simp_all [Attribute.isAsPathVariant,
        AsPath.merge_aspath_as4path]
    | some y =>
      cases x <;> cases y <;> simp_all [Attribute.isAsPathVariant,
        AsPath.merge_aspath_as4path]
  · cases a with
    | none =>
      cases y <;> simp_all [Attribute.isAs4PathVariant,
        AsPath.merge_aspath_as4path]
    | some x =>
      cases x <;> cases y <;> simp_all [Attribute.isAs4PathVariant,
        AsPath.merge_aspath_as4path]

/-- C6 witness: an `Origin` attribute sitting in the AS_PATH slot resolves
to "no merged path". -/
theorem c6_type_tag_mismatch_none_witness :
    AsPath.merge_aspath_as4path (some (.Origin .IGP)) none = .ok none :=
  c6_type_tag_mismatch_none (some (.Origin .IGP)) none
    (Or.inl ⟨.Origin .IGP, rfl, rfl⟩)

/-- C7: a segment's ASN-count contribution is its length for AS_SEQUENCE,
exactly 1 for AS_SET, and 0 for the confederation kinds; consequently
`count_asns` over `[AsSet([1,2,3]), AsSequence([4,5])]` equals 3. -/
theorem c7_count_asns_rules :
    (∀ v : List Asn, AsPathSegment.count_asns (.AsSequence v) = v.length) ∧
    (∀ v : List Asn, AsPathSegment.count_asns (.AsSet v) = 1) ∧
    (∀ v : List Asn, AsPathSegment.count_asns (.ConfedSequence v) = 0) ∧
    (∀ v : List Asn, AsPathSegment.count_asns (.ConfedSet v) = 0) ∧
    AsPath.count_asns ⟨[.AsSet [1, 2, 3], .AsSequence [4, 5]]⟩ = 3 :=
  ⟨fun _ => rfl, fun _ => rfl, fun _ => rfl, fun _ => rfl, by decide⟩

/-- C8: every `ExtendedCommunity` variant serializes to exactly 8 octets —
including the TwoOctetAsSpecific variants, whose global administrator is
stored in an `Asn` (`u32`) but occupies 2 octets on the wire. -/
theorem c8_extended_community_eight_octets :
    ∀ ec : ExtendedCommunity, (ExtendedCommunity.serializedBytes ec).length = 8 := by
  intro ec
  cases ec <;> rfl

/-- Writing the tail ASNs separator-first after a head string is the same
string as joining head and tail with the separator between elements. -/
theorem writeTail_join (sep : String) :
    ∀ (rest : List Asn) (x : String),
      x ++ writeTail sep rest = joinSep sep (x :: rest.map toString) := by
  intro rest
  induction rest with
  | nil => intro x; simp [writeTail, joinSep, String.append_empty]
  | cons y rest ih =>
    intro x
    simp only [writeTail, List.map_cons, joinSep]
    rw [← ih (toString y)]
    simp [String.append_assoc]

/-- On sequence-shaped segments the two per-segment renderings coincide. -/
theorem segment_display_eq_on_sequences :
    ∀ seg : AsPathSegment, seg.isSequenceKind = true →
      seg.displayAttr = seg.displayDisp := by
  intro seg h
  cases seg with
  | AsSequence s =>
    cases s with
    | nil => rfl
    | cons x rest =>
      show ("" ++ (toString x ++ writeTail (" ") rest)) ++ "" = _
      rw [String.empty_append, String.append_empty]
      exact writeTail_join (" ") rest (toString x)
  | ConfedSequence s =>
    cases s with
    | nil => rfl
    | cons x rest =>
      show ("" ++ (toString x ++ writeTail (" ") rest)) ++ "" = _
      rw [String.empty_append, String.append_empty]
      exact writeTail_join (" ") rest (toString x)
  | AsSet s => simp [AsPathSegment.isSequenceKind] at h
  | ConfedSet s => simp [AsPathSegment.isSequenceKind] at h

/-- C9 counterexample: a withdrawal with every optional field absent renders
with nine pipes after the prefix (13 delimiters in total, separating the 14
formatted fields), not the eight trailing pipes of the claimed template. -/
theorem c9_withdraw_render_cex :
    BgpElem.display ⟨0, .WITHDRAW, .V4 ⟨10, 0, 0, 1⟩, 65000,
        ⟨⟨.V4 ⟨10, 0, 0, 0⟩, 24⟩, 0⟩, none, none, none, none, none, none,
        none, none, none, none⟩ =
      "W|0|10.0.0.1|65000|10.0.0.0/24|||||||||" ∧
    "W|0|10.0.0.1|65000|10.0.0.0/24|||||||||" ≠
      "W|0|10.0.0.1|65000|10.0.0.0/24||||||||" :=
  ⟨by decide, by decide⟩

/-- C9 (amended): for every `BgpElem` whose `elem_type` is WITHDRAW and
whose optional fields (next_hop, as_path, origin, local_pref, med,
communities, atomic, aggr_asn, aggr_ip) are all absent, the rendering is
exactly `W|<ts>|<peer_ip>|<peer_asn>|<prefix>` followed by nine pipes —
every absent optional renders as the empty string and the delimiter count
is the constant 13 for every `BgpElem`. -/
theorem c9_withdraw_render_amended :
    ∀ (ts : Nat) (ip : IpAddr) (asn : Asn) (p : NetworkPrefix)
      (oa : Option (List Asn)),
      BgpElem.display ⟨ts, .WITHDRAW, ip, asn, p, none, none, oa, none, none,
          none, none, none, none, none⟩ =
        "W" ++ "|" ++ toString ts ++ "|" ++ ip.displayStr ++ "|" ++
          toString asn ++ "|" ++ p.displayStr ++ "|||||||||" := by
  intro ts ip asn p oa
  simp only [BgpElem.display, option_to_string, option_to_string_communities,
    String.append_empty, String.append_assoc]
  rfl

/-- C10 counterexample: on a one-segment AS_SET path the `attributes.rs`
rendering keeps spaces inside the braces and after the comma while the
`display.rs` rendering does not, so the two `Display` implementations
disagree. -/
theorem c10_display_impls_differ_cex :
    AsPath.displayAttr ⟨[.AsSet [1, 2]]⟩ = "\x7b 1, 2 \x7d" ∧
    AsPath.displayDisp ⟨[.AsSet [1, 2]]⟩ = "\x7b1,2\x7d" ∧
    AsPath.displayAttr ⟨[.AsSet [1, 2]]⟩ ≠ AsPath.displayDisp ⟨[.AsSet [1, 2]]⟩ :=
  ⟨by decide, by decide, by decide⟩

/-- C10 (amended): the two `Display` implementations for `AsPath` produce
identical output on every path all of whose segments are sequence-shaped
(`AsSequence` or `ConfedSequence`); they differ on set segments. -/
theorem c10_display_impls_agree_on_sequences :
    ∀ p : AsPath, p.segments.all AsPathSegment.isSequenceKind = true →
      p.displayAttr = p.displayDisp := by
  intro p h
  unfold AsPath.displayAttr AsPath.displayDisp
  have hmap : p.segments.map AsPathSegment.displayAttr =
      p.segments.map AsPathSegment.displayDisp := by
    apply List.map_congr_left
    intro seg hseg
    exact segment_display_eq_on_sequences seg
      ((List.all_eq_true.mp h seg hseg))
  rw [hmap]

/-- C10 witness: the amended agreement applied to a concrete path holding
one AS_SEQUENCE and one CONFED_SEQUENCE segment. -/
theorem c10_display_impls_witness :
    (List.all [AsPathSegment.AsSequence [1, 2], .ConfedSequence [3]]
        AsPathSegment.isSequenceKind) = true ∧
    AsPath.displayAttr ⟨[.AsSequence [1, 2], .ConfedSequence [3]]⟩ =
      AsPath.displayDisp ⟨[.AsSequence [1, 2], .ConfedSequence [3]]⟩ :=
  ⟨by decide,
   c10_display_impls_agree_on_sequences
     ⟨[.AsSequence [1, 2], .ConfedSequence [3]]⟩ (by decide)⟩

end BgpModels
